import Mathlib

/-!
Verification of the fingertip-geometry analysis tool
(`geort/utils/analyze_fingertip_geometry.py`).

The Python code is embedded shallowly:
* numpy float arrays become exact rationals (`ℚ`) and `Vec3` triples;
* the filesystem plus `trimesh.load` become an environment function
  `List Char → Option Mesh`;
* raised Python exceptions become `Except` errors;
* `np.argmax` (index of the first occurrence of the maximum) and
  `np.max` are modelled by executable list functions proved below to
  return the first maximal index / the maximum.
-/

namespace GeoRT

/-- A 3-vector of exact rationals, modelling a numpy float array of
length 3. -/
structure Vec3 where
  x : ℚ
  y : ℚ
  z : ℚ
deriving DecidableEq, Repr

/-- Component access by axis index (numpy `v[i]`). -/
def Vec3.nth (v : Vec3) : Fin 3 → ℚ
  | 0 => v.x
  | 1 => v.y
  | 2 => v.z

/-- numpy dot product of two 3-vectors. -/
def Vec3.dot (a b : Vec3) : ℚ :=
  a.x * b.x + a.y * b.y + a.z * b.z

/-- numpy scalar multiplication `c * v`. -/
def Vec3.smul (c : ℚ) (v : Vec3) : Vec3 :=
  ⟨c * v.x, c * v.y, c * v.z⟩

/-- numpy componentwise addition. -/
def Vec3.add (a b : Vec3) : Vec3 :=
  ⟨a.x + b.x, a.y + b.y, a.z + b.z⟩

/-- numpy componentwise subtraction. -/
def Vec3.sub (a b : Vec3) : Vec3 :=
  ⟨a.x - b.x, a.y - b.y, a.z - b.z⟩

/-- The zero vector `np.zeros(3)` / `[0, 0, 0]`. -/
def Vec3.zero : Vec3 := ⟨0, 0, 0⟩

/-- `np.max` over a nonempty array, written as a fold over head and
tail. -/
def listMax (a : ℚ) (l : List ℚ) : ℚ :=
  l.foldl max a

/-- Componentwise minimum, used for the mesh bounding box. -/
def Vec3.minv (a b : Vec3) : Vec3 :=
  ⟨min a.x b.x, min a.y b.y, min a.z b.z⟩

/-- Componentwise maximum, used for the mesh bounding box. -/
def Vec3.maxv (a b : Vec3) : Vec3 :=
  ⟨max a.x b.x, max a.y b.y, max a.z b.z⟩

/-- `np.argmax` over a nonempty rational array: the index of the FIRST
occurrence of the maximum (numpy's documented tie-break).  On `[]` it
returns `0`; numpy raises there, and every call site below guards
against the empty case. -/
def argmaxQ : List ℚ → Nat
  | [] => 0
  | [_] => 0
  | a :: b :: rest =>
    let j := argmaxQ (b :: rest)
    if (b :: rest).getD j b ≤ a then 0 else j + 1

/-- `np.argmax` on a length-3 array (the per-axis bounding-box extents):
the first index attaining the maximum. -/
def argmax3 (r : Vec3) : Fin 3 :=
  if r.y ≤ r.x ∧ r.z ≤ r.x then 0
  else if r.z ≤ r.y then 1
  else 2

/-! ## Strings and mesh-path resolution (`load_mesh`, lines 132-154)

Paths are modelled as `List Char`.  Python `str.split(sep)` and
`str.replace(sep, '')` scan non-overlapping occurrences of `sep` left to
right; `splitOnSub` below implements exactly that scan (with structural
fuel so the kernel can evaluate it), and replacement by the empty string
is the concatenation of the split pieces. -/

/-- One left-to-right non-overlapping scan for occurrences of `pat`
(Python `str.split(sep)` on character lists).  `fuel` only needs to be
at least the length of the scanned list. -/
def splitOnSubFuel (pat : List Char) : Nat → List Char → List (List Char)
  | 0, s => [s]
  | _, [] => [[]]
  | fuel + 1, c :: rest =>
    if pat ≠ [] ∧ pat.isPrefixOf (c :: rest) then
      [] :: splitOnSubFuel pat fuel (List.drop (pat.length - 1) rest)
    else
      match splitOnSubFuel pat fuel rest with
      | [] => [[c]]
      | h :: t => (c :: h) :: t

/-- Python `s.split(pat)` for a non-empty separator `pat`. -/
def splitOnSub (pat s : List Char) : List (List Char) :=
  splitOnSubFuel pat s.length s

/-- Python `s.replace(pat, '')`: every occurrence of `pat` removed,
i.e. the concatenation of `s.split(pat)`. -/
def replaceSubEmpty (pat s : List Char) : List Char :=
  (splitOnSub pat s).flatten

/-- `pathlib.Path(dir) / p`: `p` itself when absolute, else
`dir + "/" + p`. -/
def joinPath (dir p : List Char) : List Char :=
  if p.head? = some '/' then p else dir ++ '/' :: p

/-- Lines 135-136: `if mesh_path.startswith('package://'):
mesh_path = mesh_path.replace('package://', '')` — note `replace`
removes EVERY occurrence, not only the leading one. -/
def stripPackage (mp : List Char) : List Char :=
  if "package://".toList.isPrefixOf mp then
    replaceSubEmpty "package://".toList mp
  else mp

/-- Line 142: `mesh_path.split('meshes/')[-1]`. -/
def lastAfterMeshes (mp : List Char) : List Char :=
  (splitOnSub "meshes/".toList mp).getLastD []

/-- Lines 135-147 of `load_mesh`: candidate-path resolution, with the
filesystem abstracted as the existence oracle `ex`.  Returns the path
that is loaded, or `none` when both attempts fail. -/
def resolve_mesh_path (mesh_path urdf_dir : List Char)
    (ex : List Char → Bool) : Option (List Char) :=
  let mp := stripPackage mesh_path
  let full := joinPath urdf_dir mp
  if ex full then some full
  else
    let alt := joinPath urdf_dir (lastAfterMeshes mp)
    if ex alt then some alt else none

/-- Formalisation of the CLAIM's words (not of the source): resolution
that strips only a LEADING `package://` prefix, once, and otherwise
proceeds like `resolve_mesh_path`.  Used to compare the claim against
the code. -/
def resolve_mesh_path_claim (mesh_path urdf_dir : List Char)
    (ex : List Char → Bool) : Option (List Char) :=
  let mp := if "package://".toList.isPrefixOf mesh_path then
      mesh_path.drop "package://".toList.length
    else mesh_path
  let full := joinPath urdf_dir mp
  if ex full then some full
  else
    let alt := joinPath urdf_dir (lastAfterMeshes mp)
    if ex alt then some alt else none

/-! ## Data model (`parse_urdf`, lines 51-129) -/

/-- A loaded triangle mesh, as the analysis consumes it from trimesh:
its vertex list (in file order) and the library-provided centroid
(trimesh's surface centroid, NOT the vertex mean, so it is carried as
data). -/
structure Mesh where
  vertices : List Vec3
  centroid : Vec3
deriving DecidableEq, Repr

/-- One collision entry of a link (lines 105-127): a tagged variant
over mesh / box / sphere, each with its parsed origin. -/
inductive Primitive
  | meshPrim (file : List Char) (originXyz originRpy : Vec3)
  | boxPrim (size : Vec3) (originXyz originRpy : Vec3)
  | spherePrim (radius : ℚ) (originXyz originRpy : Vec3)
deriving DecidableEq, Repr

/-- One visual entry of a link (lines 78-85): `parse_urdf` records only
mesh geometry for visuals. -/
structure VisualPrim where
  file : List Char
  originXyz : Vec3
  originRpy : Vec3
deriving DecidableEq, Repr

/-- A link's geometry table, as produced by `parse_urdf`. -/
structure LinkData where
  visual : List VisualPrim
  collision : List Primitive
deriving DecidableEq, Repr

/-- The `mesh_type` tag of an analysis result. -/
inductive MeshType
  | collision_mesh
  | box
  | sphere
  | visual_mesh
deriving DecidableEq, Repr

/-- The `tip_axis_used` diagnostic: an axis index, or the formatted
angle description of line 202 (carried as data). -/
inductive TipAxisUsed
  | axisIdx (i : Fin 3)
  | angleDesc (angleDeg : ℚ) (fromAxis toAxis : Fin 3)
deriving DecidableEq, Repr

/-- A `--tip-angles` specification `(from_axis, to_axis, angle_deg)`
together with the direction the code derives from it at lines 196-199:
`direction[from_axis] = cos θ; direction[to_axis] = sin θ;
direction /= norm(direction)`.  The trigonometric values are irrational,
so the embedding carries the resolved direction `dir` as data; theorems
about the angle branch quantify over it (adding, where the claim does,
the hypothesis that it is a unit vector, which holds of the code's
direction whenever `from_axis ≠ to_axis`). -/
structure AngleSpec where
  fromAxis : Fin 3
  toAxis : Fin 3
  angleDeg : ℚ
  dir : Vec3
deriving DecidableEq, Repr

/-- The `results` dictionary of `analyze_fingertip_geometry`
(lines 167-175), every field optional and initially `None`. -/
structure Results where
  bounds : Option (Vec3 × Vec3)
  center : Option Vec3
  centroid : Option Vec3
  tip_estimate : Option Vec3
  mesh_type : Option MeshType
  tip_axis_used : Option TipAxisUsed
  tip_direction : Option Vec3
deriving DecidableEq, Repr

/-- The all-`None` initial `results` dictionary. -/
def emptyResults : Results :=
  ⟨none, none, none, none, none, none, none⟩

/-- An exception escaping the analysis: numpy's reduction / trimesh's
bounds access on a zero-vertex mesh raises (`ValueError` /
`AttributeError`); the repository defines no error classes of its own. -/
inductive GeoError
  | emptyMesh
deriving DecidableEq, Repr

instance instDecEqExcept {ε α : Type} [DecidableEq ε] [DecidableEq α] :
    DecidableEq (Except ε α)
  | Except.error e, Except.error f =>
    if h : e = f then .isTrue (congrArg Except.error h)
    else .isFalse fun c => h (Except.error.inj c)
  | Except.error _, Except.ok _ => .isFalse fun c => Except.noConfusion c
  | Except.ok _, Except.error _ => .isFalse fun c => Except.noConfusion c
  | Except.ok a, Except.ok b =>
    if h : a = b then .isTrue (congrArg Except.ok h)
    else .isFalse fun c => h (Except.ok.inj c)

/-- The environment `load_mesh` runs against: `pathExists` is
`Path.exists()` and `loadFile` is `trimesh.load` (returning `none` when
loading raises, lines 149-154). -/
structure FileSys where
  pathExists : List Char → Bool
  loadFile : List Char → Option Mesh

/-- `load_mesh` (lines 132-154): resolve the candidate path, then load;
`none` when no candidate exists or loading fails. -/
def load_mesh (E : FileSys) (mesh_path urdf_dir : List Char) : Option Mesh :=
  match resolve_mesh_path mesh_path urdf_dir E.pathExists with
  | none => none
  | some p => E.loadFile p

/-- Lines 184-227: the collision-mesh branch of
`analyze_fingertip_geometry`, for a successfully loaded mesh `m`.  A
zero-vertex mesh makes trimesh report `None` bounds and numpy's
reductions raise, modelled as `GeoError.emptyMesh`. -/
def analyzeCollisionMesh (m : Mesh) (tip_axis : Option (Fin 3))
    (tip_axis_angle : Option AngleSpec) : Except GeoError Results :=
  match m.vertices with
  | [] => .error .emptyMesh
  | v0 :: vr =>
    let bmin := vr.foldl Vec3.minv v0
    let bmax := vr.foldl Vec3.maxv v0
    let center := Vec3.smul (1/2) (Vec3.add bmin bmax)
    match tip_axis_angle with
    | some spec =>
      -- lines 204-210: projections, their maximum, tip on the direction
      let maxProjection :=
        listMax (Vec3.dot v0 spec.dir) (vr.map fun v => Vec3.dot v spec.dir)
      .ok { bounds := some (bmin, bmax), center := some center,
            centroid := some m.centroid,
            tip_estimate := some (Vec3.smul maxProjection spec.dir),
            mesh_type := some .collision_mesh,
            tip_axis_used :=
              some (.angleDesc spec.angleDeg spec.fromAxis spec.toAxis),
            tip_direction := some spec.dir }
    | none =>
      -- lines 212-225: vertex of maximal coordinate on the chosen axis
      let use_axis :=
        match tip_axis with
        | some a => a
        | none => argmax3 (Vec3.sub bmax bmin)
      let max_idx := argmaxQ ((v0 :: vr).map fun v => v.nth use_axis)
      .ok { bounds := some (bmin, bmax), center := some center,
            centroid := some m.centroid,
            tip_estimate := some ((v0 :: vr).getD max_idx Vec3.zero),
            mesh_type := some .collision_mesh,
            tip_axis_used := some (.axisIdx use_axis),
            tip_direction := none }

/-- Lines 248-260: the visual-mesh fallback branch, updating the
`results` dictionary `r`; the tip is the vertex of maximal Z. -/
def analyzeVisualMesh (r : Results) (m : Mesh) : Except GeoError Results :=
  match m.vertices with
  | [] => .error .emptyMesh
  | v0 :: vr =>
    let bmin := vr.foldl Vec3.minv v0
    let bmax := vr.foldl Vec3.maxv v0
    let max_z_idx := argmaxQ ((v0 :: vr).map fun v => v.nth 2)
    .ok { r with
          bounds := some (bmin, bmax),
          center := some (Vec3.smul (1/2) (Vec3.add bmin bmax)),
          centroid := some m.centroid,
          mesh_type := some .visual_mesh,
          tip_estimate := some ((v0 :: vr).getD max_z_idx Vec3.zero) }

/-- Lines 177-246 of `analyze_fingertip_geometry`: the first collision
primitive, dispatched on its kind (mesh / box / sphere); no collision
entry, or a mesh that fails to load, leaves the results untouched. -/
def collisionStep (E : FileSys) (link_data : LinkData)
    (urdf_dir : List Char) (tip_axis : Option (Fin 3))
    (tip_axis_angle : Option AngleSpec) : Except GeoError Results :=
  match link_data.collision with
  | [] => .ok emptyResults
  | cd :: _ =>
    match cd with
    | .meshPrim file _ _ =>
      match load_mesh E file urdf_dir with
      | none => .ok emptyResults
      | some m => analyzeCollisionMesh m tip_axis tip_axis_angle
    | .boxPrim size origin _ =>
      .ok { emptyResults with
            mesh_type := some .box, center := some origin,
            tip_estimate := some (Vec3.add origin ⟨0, 0, size.z / 2⟩) }
    | .spherePrim radius origin _ =>
      .ok { emptyResults with
            mesh_type := some .sphere, center := some origin,
            tip_estimate := some (Vec3.add origin ⟨0, 0, radius⟩) }

/-- Lines 248-260: `if results['mesh_type'] is None and
link_data['visual']:` — the visual-mesh fallback applied to the results
of the collision phase. -/
def visualStep (E : FileSys) (link_data : LinkData) (urdf_dir : List Char)
    (r : Results) : Except GeoError Results :=
  match r.mesh_type, link_data.visual with
  | none, vd :: _ =>
    match load_mesh E vd.file urdf_dir with
    | none => .ok r
    | some m => analyzeVisualMesh r m
  | _, _ => .ok r

/-- `analyze_fingertip_geometry` (lines 157-262): first collision
primitive (mesh / box / sphere), then the visual fallback when
`mesh_type` is still `None` and a visual entry exists; an exception in
the collision phase propagates. -/
def analyze_fingertip_geometry (E : FileSys) (link_data : LinkData)
    (urdf_dir : List Char) (tip_axis : Option (Fin 3))
    (tip_axis_angle : Option AngleSpec) : Except GeoError Results :=
  match collisionStep E link_data urdf_dir tip_axis tip_axis_angle with
  | .error e => .error e
  | .ok r => visualStep E link_data urdf_dir r

/-- `suggest_center_offset` (lines 265-278): the strict fallback chain
tip → centroid → bounding-box center → origin. -/
def suggest_center_offset (g : Results) : Vec3 :=
  match g.tip_estimate with
  | some t => t
  | none =>
    match g.centroid with
    | some c => c
    | none =>
      match g.center with
      | some c => c
      | none => Vec3.zero

/-! ## The slice of `parse_urdf` handling box / sphere numeric
attributes (lines 112-127).  The attribute value is abstracted as an
already-tokenised `Option`: `box.get('size')` / `sphere.get('radius')`
yield `None` when the attribute is missing, and `None.split()` /
`float(None)` then raise (`AttributeError` / `TypeError`) — the
repository defines no error class of its own for this. -/

/-- An exception escaping `parse_urdf` on a malformed primitive. -/
inductive UrdfError
  | missingAttr
deriving DecidableEq, Repr

/-- Lines 112-119: building a box collision entry from its `size`
attribute; missing attribute raises. -/
def parse_box_collision (sizeAttr : Option Vec3) (originXyz originRpy : Vec3) :
    Except UrdfError Primitive :=
  match sizeAttr with
  | none => .error .missingAttr
  | some s => .ok (.boxPrim s originXyz originRpy)

/-- Lines 120-127: building a sphere collision entry from its `radius`
attribute; missing attribute raises. -/
def parse_sphere_collision (radiusAttr : Option ℚ) (originXyz originRpy : Vec3) :
    Except UrdfError Primitive :=
  match radiusAttr with
  | none => .error .missingAttr
  | some r => .ok (.spherePrim r originXyz originRpy)

/-! ## The per-finger loop of `main` (lines 361-424) and `--save`
(lines 431-437) -/

/-- One `fingertip_link` entry of a hand configuration (the schema of
section 6 of the design: exactly these five fields). -/
structure FingerEntry where
  name : String
  link : String
  joint : String
  center_offset : Vec3
  human_hand_id : Int
deriving DecidableEq, Repr

/-- A hand configuration: the description-file path, the finger list,
and whatever other top-level fields the mapping holds (opaque to the
tool; `config.copy()` preserves them). -/
structure Config where
  urdf_path : List Char
  fingertip_link : List FingerEntry
  extraFields : List (String × String)
deriving DecidableEq, Repr

/-- Lines 363-424, one iteration: look the finger's link up, analyze,
and rebuild the suggestion entry with the suggested offset (lines
415-421); a link missing from the URDF keeps its entry unchanged
(line 424).  An exception from the analysis propagates — `main` has no
handler. -/
def processFinger (E : FileSys) (links : String → Option LinkData)
    (urdf_dir : List Char) (tip_axes_map : String → Option (Fin 3))
    (tip_angles_map : String → Option AngleSpec) (fi : FingerEntry) :
    Except GeoError FingerEntry :=
  match links fi.link with
  | some link_data =>
    match analyze_fingertip_geometry E link_data urdf_dir
        (tip_axes_map fi.name.toLower) (tip_angles_map fi.name.toLower) with
    | .error e => .error e
    | .ok g =>
      .ok { name := fi.name, link := fi.link, joint := fi.joint,
            center_offset := suggest_center_offset g,
            human_hand_id := fi.human_hand_id }
  | none => .ok fi

/-- The whole finger loop: sequential, stopping at the first uncaught
exception (which aborts the Python process). -/
def processFingers (E : FileSys) (links : String → Option LinkData)
    (urdf_dir : List Char) (tip_axes_map : String → Option (Fin 3))
    (tip_angles_map : String → Option AngleSpec) :
    List FingerEntry → Except GeoError (List FingerEntry)
  | [] => .ok []
  | fi :: rest =>
    match processFinger E links urdf_dir tip_axes_map tip_angles_map fi with
    | .error e => .error e
    | .ok s =>
      match processFingers E links urdf_dir tip_axes_map tip_angles_map rest with
      | .error e => .error e
      | .ok t => .ok (s :: t)

/-- Lines 431-437 (`--save`): `output_config = config.copy()` (shallow —
every other top-level field kept) and `output_config['fingertip_link'] =
suggestions`; nothing is written when the loop raised. -/
def mainSave (E : FileSys) (links : String → Option LinkData)
    (urdf_dir : List Char) (tip_axes_map : String → Option (Fin 3))
    (tip_angles_map : String → Option AngleSpec) (config : Config) :
    Except GeoError Config :=
  match processFingers E links urdf_dir tip_axes_map tip_angles_map
      config.fingertip_link with
  | .error e => .error e
  | .ok suggestions => .ok { config with fingertip_link := suggestions }

/-! ## Lemmas about the numeric list helpers -/

/-- `np.min` over a nonempty array, dual to `listMax`. -/
def listMin (a : ℚ) (l : List ℚ) : ℚ :=
  l.foldl min a

theorem le_listMax_self (a : ℚ) (l : List ℚ) : a ≤ listMax a l := by
  induction l generalizing a with
  | nil => exact le_refl a
  | cons b t ih =>
    exact le_trans (le_max_left a b) (ih (max a b))

theorem le_listMax_of_mem {x : ℚ} {l : List ℚ} (a : ℚ) (hx : x ∈ l) :
    x ≤ listMax a l := by
  induction l generalizing a with
  | nil => cases hx
  | cons b t ih =>
    rcases List.mem_cons.mp hx with h | h
    · subst h
      exact le_trans (le_max_right a x) (le_listMax_self (max a x) t)
    · exact ih (max a b) h

theorem listMax_mem (a : ℚ) (l : List ℚ) :
    listMax a l = a ∨ listMax a l ∈ l := by
  induction l generalizing a with
  | nil => exact Or.inl rfl
  | cons b t ih =>
    have h := ih (max a b)
    rcases h with h | h
    · show listMax (max a b) t = a ∨ _
      rcases max_choice a b with hm | hm
      · exact Or.inl (h.trans hm)
      · exact Or.inr (List.mem_cons.mpr (Or.inl (h.trans hm)))
    · exact Or.inr (List.mem_cons.mpr (Or.inr h))

theorem listMin_le_self (a : ℚ) (l : List ℚ) : listMin a l ≤ a := by
  induction l generalizing a with
  | nil => exact le_refl a
  | cons b t ih =>
    exact le_trans (ih (min a b)) (min_le_left a b)

theorem listMin_le_of_mem {x : ℚ} {l : List ℚ} (a : ℚ) (hx : x ∈ l) :
    listMin a l ≤ x := by
  induction l generalizing a with
  | nil => cases hx
  | cons b t ih =>
    rcases List.mem_cons.mp hx with h | h
    · subst h
      exact le_trans (listMin_le_self (min a x) t) (min_le_right a x)
    · exact ih (min a b) h

theorem listMin_mem (a : ℚ) (l : List ℚ) :
    listMin a l = a ∨ listMin a l ∈ l := by
  induction l generalizing a with
  | nil => exact Or.inl rfl
  | cons b t ih =>
    have h := ih (min a b)
    rcases h with h | h
    · show listMin (min a b) t = a ∨ _
      rcases min_choice a b with hm | hm
      · exact Or.inl (h.trans hm)
      · exact Or.inr (List.mem_cons.mpr (Or.inl (h.trans hm)))
    · exact Or.inr (List.mem_cons.mpr (Or.inr h))

theorem getD_eq_of_lt {α : Type} (l : List α) (j : Nat) (d d' : α)
    (h : j < l.length) : l.getD j d = l.getD j d' := by
  induction l generalizing j with
  | nil => cases h
  | cons a t ih =>
    cases j with
    | zero => rfl
    | succ j => exact ih j (Nat.lt_of_succ_lt_succ h)

theorem getD_mem {α : Type} (l : List α) (j : Nat) (d : α)
    (h : j < l.length) : l.getD j d ∈ l := by
  induction l generalizing j with
  | nil => cases h
  | cons a t ih =>
    cases j with
    | zero => exact List.mem_cons_self a t
    | succ j =>
      exact List.mem_cons.mpr (Or.inr (ih j (Nat.lt_of_succ_lt_succ h)))

theorem argmaxQ_lt_length (l : List ℚ) (h : l ≠ []) :
    argmaxQ l < l.length := by
  match l with
  | [] => exact absurd rfl h
  | [a] => exact Nat.zero_lt_one
  | a :: b :: rest =>
    show argmaxQ (a :: b :: rest) < _
    rw [argmaxQ]
    split
    · exact Nat.succ_pos _
    · exact Nat.succ_lt_succ (argmaxQ_lt_length (b :: rest) (by simp))

theorem argmaxQ_is_max (l : List ℚ) (d : ℚ) :
    ∀ x ∈ l, x ≤ l.getD (argmaxQ l) d := by
  match l with
  | [] => intro x hx; cases hx
  | [a] =>
    intro x hx
    rcases List.mem_singleton.mp hx with rfl
    exact le_refl x
  | a :: b :: rest =>
    intro x hx
    rw [argmaxQ]
    have hlt := argmaxQ_lt_length (b :: rest) (by simp)
    have hd : (b :: rest).getD (argmaxQ (b :: rest)) b =
        (b :: rest).getD (argmaxQ (b :: rest)) d :=
      getD_eq_of_lt _ _ b d hlt
    have ih := argmaxQ_is_max (b :: rest) d
    split
    · next hle =>
      rcases List.mem_cons.mp hx with rfl | hx'
      · exact le_refl x
      · exact le_trans (ih x hx') (by rw [← hd] at *; exact hle)
    · next hgt =>
      have ha : a < (b :: rest).getD (argmaxQ (b :: rest)) d := by
        rw [← hd]; exact lt_of_not_ge hgt
      rcases List.mem_cons.mp hx with rfl | hx'
      · exact le_of_lt ha
      · exact ih x hx'

theorem argmaxQ_is_first (l : List ℚ) (d : ℚ) :
    ∀ j < argmaxQ l, l.getD j d < l.getD (argmaxQ l) d := by
  match l with
  | [] => intro j hj; simp [argmaxQ] at hj
  | [a] => intro j hj; simp [argmaxQ] at hj
  | a :: b :: rest =>
    intro j hj
    rw [argmaxQ] at hj ⊢
    have hlt := argmaxQ_lt_length (b :: rest) (by simp)
    have hd : (b :: rest).getD (argmaxQ (b :: rest)) b =
        (b :: rest).getD (argmaxQ (b :: rest)) d :=
      getD_eq_of_lt _ _ b d hlt
    by_cases hc : (b :: rest).getD (argmaxQ (b :: rest)) b ≤ a
    · rw [if_pos hc] at hj
      cases hj
    · rw [if_neg hc] at hj ⊢
      have hM : a < (b :: rest).getD (argmaxQ (b :: rest)) d := by
        rw [← hd]
        exact lt_of_not_ge hc
      cases j with
      | zero =>
        simpa [List.getD_cons_zero, List.getD_cons_succ] using hM
      | succ j =>
        simpa [List.getD_cons_succ] using
          argmaxQ_is_first (b :: rest) d j (Nat.lt_of_succ_lt_succ hj)

theorem nth_zero (v : Vec3) : v.nth 0 = v.x := rfl

theorem nth_one (v : Vec3) : v.nth 1 = v.y := rfl

theorem nth_two (v : Vec3) : v.nth 2 = v.z := rfl

theorem argmax3_is_max (r : Vec3) : ∀ i, r.nth i ≤ r.nth (argmax3 r) := by
  intro i
  by_cases h1 : r.y ≤ r.x ∧ r.z ≤ r.x
  · rw [argmax3, if_pos h1, nth_zero]
    fin_cases i
    · exact le_refl _
    · exact h1.1
    · exact h1.2
  · by_cases h2 : r.z ≤ r.y
    · rw [argmax3, if_neg h1, if_pos h2, nth_one]
      have hxy : r.x ≤ r.y := by
        rcases not_and_or.mp h1 with h | h
        · exact le_of_lt (lt_of_not_ge h)
        · exact le_of_lt (lt_of_lt_of_le (lt_of_not_ge h) h2)
      fin_cases i
      · exact hxy
      · exact le_refl _
      · exact h2
    · rw [argmax3, if_neg h1, if_neg h2, nth_two]
      have h2' := lt_of_not_ge h2
      have hxz : r.x ≤ r.z := by
        rcases not_and_or.mp h1 with h | h
        · exact le_of_lt (lt_trans (lt_of_not_ge h) h2')
        · exact le_of_lt (lt_of_not_ge h)
      fin_cases i
      · exact hxz
      · exact le_of_lt h2'
      · exact le_refl _

theorem argmax3_is_first (r : Vec3) :
    ∀ j : Fin 3, j < argmax3 r → r.nth j < r.nth (argmax3 r) := by
  intro j hj
  by_cases h1 : r.y ≤ r.x ∧ r.z ≤ r.x
  · rw [argmax3, if_pos h1] at hj
    exact absurd (Fin.lt_def.mp hj) (Nat.not_lt_zero _)
  · by_cases h2 : r.z ≤ r.y
    · rw [argmax3, if_neg h1, if_pos h2] at hj ⊢
      have hj0 : j = 0 := by
        have hv : j.val < 1 := Fin.lt_def.mp hj
        exact Fin.ext (by omega)
      subst hj0
      rw [nth_zero, nth_one]
      rcases not_and_or.mp h1 with h | h
      · exact lt_of_not_ge h
      · exact lt_of_lt_of_le (lt_of_not_ge h) h2
    · rw [argmax3, if_neg h1, if_neg h2] at hj ⊢
      have h2' := lt_of_not_ge h2
      have hv : j.val < 2 := Fin.lt_def.mp hj
      have hj01 : j = 0 ∨ j = 1 := by
        have : j.val = 0 ∨ j.val = 1 := by omega
        rcases this with h | h
        · exact Or.inl (Fin.ext (by omega))
        · exact Or.inr (Fin.ext (by omega))
      rw [nth_two]
      rcases hj01 with rfl | rfl
      · rw [nth_zero]
        rcases not_and_or.mp h1 with h | h
        · exact lt_trans (lt_of_not_ge h) h2'
        · exact lt_of_not_ge h
      · rw [nth_one]
        exact h2'

theorem foldl_maxv_nth (l : List Vec3) (v : Vec3) (i : Fin 3) :
    (l.foldl Vec3.maxv v).nth i = listMax (v.nth i) (l.map (fun w => w.nth i)) := by
  induction l generalizing v with
  | nil => rfl
  | cons b t ih =>
    show (t.foldl Vec3.maxv (Vec3.maxv v b)).nth i = _
    rw [ih]
    have : (Vec3.maxv v b).nth i = max (v.nth i) (b.nth i) := by
      fin_cases i <;> rfl
    rw [this]
    rfl

theorem foldl_minv_nth (l : List Vec3) (v : Vec3) (i : Fin 3) :
    (l.foldl Vec3.minv v).nth i = listMin (v.nth i) (l.map (fun w => w.nth i)) := by
  induction l generalizing v with
  | nil => rfl
  | cons b t ih =>
    show (t.foldl Vec3.minv (Vec3.minv v b)).nth i = _
    rw [ih]
    have : (Vec3.minv v b).nth i = min (v.nth i) (b.nth i) := by
      fin_cases i <;> rfl
    rw [this]
    rfl

theorem sub_nth (a b : Vec3) (i : Fin 3) :
    (Vec3.sub a b).nth i = a.nth i - b.nth i := by
  fin_cases i <;> rfl

/-! ## Branch-unfolding lemmas for `analyze_fingertip_geometry` -/

theorem analyzeCollisionMesh_mesh_type (m : Mesh) (ax : Option (Fin 3))
    (ang : Option AngleSpec) (r : Results)
    (h : analyzeCollisionMesh m ax ang = .ok r) :
    r.mesh_type = some MeshType.collision_mesh := by
  rcases hv : m.vertices with _ | ⟨v0, vr⟩
  · simp only [analyzeCollisionMesh, hv] at h
    exact Except.noConfusion h
  · rcases ang with _ | spec
    · simp only [analyzeCollisionMesh, hv] at h
      cases h
      rfl
    · simp only [analyzeCollisionMesh, hv] at h
      cases h
      rfl

theorem visualStep_of_some (E : FileSys) (link : LinkData)
    (dir : List Char) (r : Results) (t : MeshType)
    (h : r.mesh_type = some t) : visualStep E link dir r = .ok r := by
  rw [visualStep, h]

/-- When the first collision primitive is a mesh that loads, the whole
analysis is the collision-mesh branch (on success `mesh_type` is set,
so the visual fallback is skipped; on failure the exception
propagates). -/
theorem analyze_eq_collisionMesh (E : FileSys) (link : LinkData)
    (dir : List Char) (ax : Option (Fin 3)) (ang : Option AngleSpec)
    (f : List Char) (o rp : Vec3) (rest : List Primitive) (m : Mesh)
    (hc : link.collision = .meshPrim f o rp :: rest)
    (hm : load_mesh E f dir = some m) :
    analyze_fingertip_geometry E link dir ax ang =
      analyzeCollisionMesh m ax ang := by
  have hstep : collisionStep E link dir ax ang = analyzeCollisionMesh m ax ang := by
    simp only [collisionStep, hc, hm]
  rw [analyze_fingertip_geometry, hstep]
  rcases hres : analyzeCollisionMesh m ax ang with e | r
  · rfl
  · exact visualStep_of_some E link dir r _ (analyzeCollisionMesh_mesh_type m ax ang r hres)

/-- When the first collision primitive is a box, the analysis result is
fixed (lines 229-236). -/
theorem analyze_eq_box (E : FileSys) (link : LinkData) (dir : List Char)
    (ax : Option (Fin 3)) (ang : Option AngleSpec) (size : Vec3)
    (o rp : Vec3) (rest : List Primitive)
    (hc : link.collision = .boxPrim size o rp :: rest) :
    analyze_fingertip_geometry E link dir ax ang =
      .ok { emptyResults with
            mesh_type := some .box, center := some o,
            tip_estimate := some (Vec3.add o ⟨0, 0, size.z / 2⟩) } := by
  have hstep : collisionStep E link dir ax ang =
      .ok { emptyResults with
            mesh_type := some .box, center := some o,
            tip_estimate := some (Vec3.add o ⟨0, 0, size.z / 2⟩) } := by
    simp only [collisionStep, hc]
  rw [analyze_fingertip_geometry, hstep]
  exact visualStep_of_some E link dir _ .box rfl

/-- When the first collision primitive is a sphere, the analysis result
is fixed (lines 238-245). -/
theorem analyze_eq_sphere (E : FileSys) (link : LinkData) (dir : List Char)
    (ax : Option (Fin 3)) (ang : Option AngleSpec) (radius : ℚ)
    (o rp : Vec3) (rest : List Primitive)
    (hc : link.collision = .spherePrim radius o rp :: rest) :
    analyze_fingertip_geometry E link dir ax ang =
      .ok { emptyResults with
            mesh_type := some .sphere, center := some o,
            tip_estimate := some (Vec3.add o ⟨0, 0, radius⟩) } := by
  have hstep : collisionStep E link dir ax ang =
      .ok { emptyResults with
            mesh_type := some .sphere, center := some o,
            tip_estimate := some (Vec3.add o ⟨0, 0, radius⟩) } := by
    simp only [collisionStep, hc]
  rw [analyze_fingertip_geometry, hstep]
  exact visualStep_of_some E link dir _ .sphere rfl

theorem getD_map_of_lt {α β : Type} (f : α → β) (l : List α) (i : Nat)
    (d : β) (z : α) (h : i < l.length) :
    (l.map f).getD i d = f (l.getD i z) := by
  induction l generalizing i with
  | nil => cases h
  | cons a t ih =>
    cases i with
    | zero => rfl
    | succ i => exact ih i (Nat.lt_of_succ_lt_succ h)

/-- The properties of `np.argmax`-based vertex selection on the nonempty
vertex list `v0 :: vr` and axis `a`: the selected index is in range, the
selected vertex is an actual vertex, its `a`-coordinate is maximal, and
every earlier vertex has a strictly smaller `a`-coordinate (first
occurrence wins ties). -/
theorem axis_argmax_spec (v0 : Vec3) (vr : List Vec3) (a : Fin 3) :
    argmaxQ ((v0 :: vr).map fun v => v.nth a) < (v0 :: vr).length ∧
    (v0 :: vr).getD (argmaxQ ((v0 :: vr).map fun v => v.nth a)) Vec3.zero ∈
      v0 :: vr ∧
    (∀ v ∈ v0 :: vr, v.nth a ≤
      ((v0 :: vr).getD (argmaxQ ((v0 :: vr).map fun v => v.nth a))
        Vec3.zero).nth a) ∧
    (∀ j, j < argmaxQ ((v0 :: vr).map fun v => v.nth a) →
      ((v0 :: vr).getD j Vec3.zero).nth a <
      ((v0 :: vr).getD (argmaxQ ((v0 :: vr).map fun v => v.nth a))
        Vec3.zero).nth a) := by
  set verts := v0 :: vr with hverts
  set coords := verts.map fun v => v.nth a with hcoords
  set i := argmaxQ coords with hi
  have hne : coords ≠ [] := by simp [hcoords, hverts]
  have hlen : coords.length = verts.length := by
    rw [hcoords]; exact List.length_map _ _
  have hilt : i < verts.length := by
    rw [← hlen]; exact argmaxQ_lt_length _ hne
  have hmapD : ∀ j, j < verts.length →
      coords.getD j 0 = (verts.getD j Vec3.zero).nth a := by
    intro j hj
    rw [hcoords]
    exact getD_map_of_lt _ _ j 0 Vec3.zero hj
  refine ⟨hilt, getD_mem _ _ _ hilt, ?_, ?_⟩
  · intro v hvm
    have hmem : v.nth a ∈ coords := by
      rw [hcoords]
      exact List.mem_map_of_mem _ hvm
    have := argmaxQ_is_max coords 0 (v.nth a) hmem
    rwa [hmapD i hilt] at this
  · intro j hj
    have hjlen : j < verts.length := lt_trans hj hilt
    have := argmaxQ_is_first coords 0 j hj
    rwa [hmapD i hilt, hmapD j hjlen] at this

/-- Per-axis extent of the bounding box of the nonempty vertex list
`v0 :: vr`: maximum minus minimum of the `i`-th coordinates over all
vertices (`mesh.bounds[1] - mesh.bounds[0]` per axis). -/
def bboxExtent (v0 : Vec3) (vr : List Vec3) (i : Fin 3) : ℚ :=
  listMax (v0.nth i) (vr.map fun v => v.nth i) -
    listMin (v0.nth i) (vr.map fun v => v.nth i)

theorem sub_bounds_nth (v0 : Vec3) (vr : List Vec3) (i : Fin 3) :
    (Vec3.sub (vr.foldl Vec3.maxv v0) (vr.foldl Vec3.minv v0)).nth i =
      bboxExtent v0 vr i := by
  rw [sub_nth, foldl_maxv_nth, foldl_minv_nth, bboxExtent]

/-- Evaluation of the angle branch of the collision-mesh analysis on a
nonempty vertex list. -/
theorem analyzeCollisionMesh_angle_eq (m : Mesh) (ax : Option (Fin 3))
    (spec : AngleSpec) (v0 : Vec3) (vr : List Vec3)
    (hv : m.vertices = v0 :: vr) :
    analyzeCollisionMesh m ax (some spec) = .ok
      { bounds := some (vr.foldl Vec3.minv v0, vr.foldl Vec3.maxv v0),
        center := some (Vec3.smul (1/2)
          (Vec3.add (vr.foldl Vec3.minv v0) (vr.foldl Vec3.maxv v0))),
        centroid := some m.centroid,
        tip_estimate := some (Vec3.smul
          (listMax (Vec3.dot v0 spec.dir)
            (vr.map fun v => Vec3.dot v spec.dir)) spec.dir),
        mesh_type := some .collision_mesh,
        tip_axis_used := some (.angleDesc spec.angleDeg spec.fromAxis spec.toAxis),
        tip_direction := some spec.dir } := by
  simp only [analyzeCollisionMesh, hv]

/-- Evaluation of the explicit-axis branch of the collision-mesh
analysis on a nonempty vertex list. -/
theorem analyzeCollisionMesh_axis_eq (m : Mesh) (a : Fin 3) (v0 : Vec3)
    (vr : List Vec3) (hv : m.vertices = v0 :: vr) :
    analyzeCollisionMesh m (some a) none = .ok
      { bounds := some (vr.foldl Vec3.minv v0, vr.foldl Vec3.maxv v0),
        center := some (Vec3.smul (1/2)
          (Vec3.add (vr.foldl Vec3.minv v0) (vr.foldl Vec3.maxv v0))),
        centroid := some m.centroid,
        tip_estimate := some ((v0 :: vr).getD
          (argmaxQ ((v0 :: vr).map fun v => v.nth a)) Vec3.zero),
        mesh_type := some .collision_mesh,
        tip_axis_used := some (.axisIdx a),
        tip_direction := none } := by
  simp only [analyzeCollisionMesh, hv]

/-- Evaluation of the auto-detect branch of the collision-mesh analysis
on a nonempty vertex list: the axis of largest bounding-box extent is
used. -/
theorem analyzeCollisionMesh_auto_eq (m : Mesh) (v0 : Vec3)
    (vr : List Vec3) (hv : m.vertices = v0 :: vr) :
    analyzeCollisionMesh m none none = .ok
      { bounds := some (vr.foldl Vec3.minv v0, vr.foldl Vec3.maxv v0),
        center := some (Vec3.smul (1/2)
          (Vec3.add (vr.foldl Vec3.minv v0) (vr.foldl Vec3.maxv v0))),
        centroid := some m.centroid,
        tip_estimate := some ((v0 :: vr).getD
          (argmaxQ ((v0 :: vr).map fun v => v.nth
            (argmax3 (Vec3.sub (vr.foldl Vec3.maxv v0)
              (vr.foldl Vec3.minv v0))))) Vec3.zero),
        mesh_type := some .collision_mesh,
        tip_axis_used := some (.axisIdx
          (argmax3 (Vec3.sub (vr.foldl Vec3.maxv v0) (vr.foldl Vec3.minv v0)))),
        tip_direction := none } := by
  simp only [analyzeCollisionMesh, hv]

/-! ## Concrete fixtures used by witnesses and counterexamples -/

/-- A one-vertex mesh whose only vertex is off the Z axis. -/
def meshA : Mesh := ⟨[⟨1, 0, 1⟩], ⟨1, 0, 1⟩⟩

/-- A mesh with equal bounding-box extents on X and Z (extents
`(2, 1, 2)`). -/
def meshC : Mesh := ⟨[⟨0, 0, 0⟩, ⟨2, 1, 2⟩], ⟨1, 1, 1⟩⟩

/-- A mesh with an empty vertex list. -/
def meshE : Mesh := ⟨[], Vec3.zero⟩

/-- A filesystem with `d/a.stl` (loading `meshA`), `d/c.stl` (loading
`meshC`) and `d/e.stl` (loading the empty mesh). -/
def fsA : FileSys :=
  ⟨fun p => p == "d/a.stl".toList || p == "d/c.stl".toList || p == "d/e.stl".toList,
   fun p =>
     if p = "d/a.stl".toList then some meshA
     else if p = "d/c.stl".toList then some meshC
     else if p = "d/e.stl".toList then some meshE
     else none⟩

/-- A link whose only collision primitive is the mesh `a.stl`. -/
def linkA : LinkData := ⟨[], [.meshPrim "a.stl".toList Vec3.zero Vec3.zero]⟩

/-- A link whose only collision primitive is the mesh `c.stl`. -/
def linkC : LinkData := ⟨[], [.meshPrim "c.stl".toList Vec3.zero Vec3.zero]⟩

/-- A link whose only collision primitive is the zero-vertex mesh
`e.stl`. -/
def linkE : LinkData := ⟨[], [.meshPrim "e.stl".toList Vec3.zero Vec3.zero]⟩

/-- A link whose only collision primitive is a box of size
`[10, 10, 6]` at origin `(1, 2, 3)`. -/
def linkB : LinkData := ⟨[], [.boxPrim ⟨10, 10, 6⟩ ⟨1, 2, 3⟩ Vec3.zero]⟩

/-- An angle spec resolving to the unit direction `(0, 0, 1)`
(`from_axis = y`, `to_axis = z`, 90 degrees). -/
def specA : AngleSpec := ⟨1, 2, 90, ⟨0, 0, 1⟩⟩

/-! ## Claim theorems -/

/-- C3: `suggest_center_offset` is total — a Lean function of type
`Results → Vec3`, defined for every input record including the all-`None`
one — and picks by strict priority: the tip estimate if present, else
the centroid, else the bounding-box center, else the zero vector. -/
theorem C3_suggest_center_offset_total (g : Results) :
    (∀ t, g.tip_estimate = some t → suggest_center_offset g = t) ∧
    (g.tip_estimate = none →
      ∀ c, g.centroid = some c → suggest_center_offset g = c) ∧
    (g.tip_estimate = none → g.centroid = none →
      ∀ c, g.center = some c → suggest_center_offset g = c) ∧
    (g.tip_estimate = none → g.centroid = none → g.center = none →
      suggest_center_offset g = Vec3.zero) := by
  refine ⟨?_, ?_, ?_, ?_⟩ <;> intros <;> simp_all [suggest_center_offset]

/-- Witness for C3 at the record with every geometry field absent: the
zero vector comes back. -/
theorem C3_witness : suggest_center_offset emptyResults = Vec3.zero :=
  (C3_suggest_center_offset_total emptyResults).2.2.2 rfl rfl rfl

/-- C6: a box collision primitive yields tip = origin + (0, 0, size.z/2)
and a sphere yields tip = origin + (0, 0, radius), for EVERY tip-axis /
angle parameter (the +Z convention ignores the resolved direction). -/
theorem C6_box_sphere_tip (E : FileSys) (link : LinkData) (dir : List Char)
    (ax : Option (Fin 3)) (ang : Option AngleSpec) :
    (∀ size o rp rest, link.collision = .boxPrim size o rp :: rest →
      ∃ r, analyze_fingertip_geometry E link dir ax ang = .ok r ∧
        r.tip_estimate = some (Vec3.add o ⟨0, 0, size.z / 2⟩)) ∧
    (∀ radius o rp rest, link.collision = .spherePrim radius o rp :: rest →
      ∃ r, analyze_fingertip_geometry E link dir ax ang = .ok r ∧
        r.tip_estimate = some (Vec3.add o ⟨0, 0, radius⟩)) := by
  constructor
  · intro size o rp rest hc
    exact ⟨_, analyze_eq_box E link dir ax ang size o rp rest hc, rfl⟩
  · intro radius o rp rest hc
    exact ⟨_, analyze_eq_sphere E link dir ax ang radius o rp rest hc, rfl⟩

unseal Rat.add Rat.mul Rat.inv Rat.sub in
/-- C1: for a mesh collision primitive with a nonempty vertex list and
an angle spec resolving to the unit direction `d`, the tip estimate is
`d * m`, where `m` is the maximum over all mesh vertices of the dot
product with `d` (so the tip lies on the line through the origin with
direction `d`); and — second conjunct, on a concrete mesh — the result
is in general NOT itself a mesh vertex. -/
theorem C1_angle_tip_on_direction :
    (∀ (E : FileSys) (link : LinkData) (dir : List Char)
        (ax : Option (Fin 3)) (f : List Char) (o rp : Vec3)
        (rest : List Primitive) (m : Mesh) (spec : AngleSpec) (d : Vec3)
        (v0 : Vec3) (vr : List Vec3),
      link.collision = .meshPrim f o rp :: rest →
      load_mesh E f dir = some m →
      m.vertices = v0 :: vr →
      spec.dir = d →
      Vec3.dot d d = 1 →
      ∃ r mx, analyze_fingertip_geometry E link dir ax (some spec) = .ok r ∧
        r.tip_estimate = some (Vec3.smul mx d) ∧
        (∃ v ∈ m.vertices, Vec3.dot v d = mx) ∧
        (∀ v ∈ m.vertices, Vec3.dot v d ≤ mx)) ∧
    (∃ r p, analyze_fingertip_geometry fsA linkA "d".toList none
        (some specA) = .ok r ∧
      r.tip_estimate = some p ∧ p ∉ meshA.vertices) := by
  constructor
  · intro E link dir ax f o rp rest m spec d v0 vr hc hm hv hd hunit
    subst hd
    rw [analyze_eq_collisionMesh E link dir ax (some spec) f o rp rest m hc hm,
      analyzeCollisionMesh_angle_eq m ax spec v0 vr hv]
    refine ⟨_, listMax (Vec3.dot v0 spec.dir)
      (vr.map fun v => Vec3.dot v spec.dir), rfl, rfl, ?_, ?_⟩
    · rw [hv]
      rcases listMax_mem (Vec3.dot v0 spec.dir)
          (vr.map fun v => Vec3.dot v spec.dir) with h | h
      · exact ⟨v0, List.mem_cons_self _ _, h.symm⟩
      · obtain ⟨v, hvm, hfeq⟩ := List.mem_map.mp h
        exact ⟨v, List.mem_cons_of_mem _ hvm, hfeq⟩
    · rw [hv]
      intro v hvm
      rcases List.mem_cons.mp hvm with rfl | hvm'
      · exact le_listMax_self _ _
      · exact le_listMax_of_mem _ (List.mem_map_of_mem _ hvm')
  · exact ⟨{ bounds := some (⟨1, 0, 1⟩, ⟨1, 0, 1⟩),
             center := some ⟨1, 0, 1⟩, centroid := some ⟨1, 0, 1⟩,
             tip_estimate := some ⟨0, 0, 1⟩,
             mesh_type := some .collision_mesh,
             tip_axis_used := some (.angleDesc 90 1 2),
             tip_direction := some ⟨0, 0, 1⟩ },
           ⟨0, 0, 1⟩, by decide, rfl, by decide⟩

unseal Rat.add Rat.mul Rat.inv Rat.sub in
/-- Witness for C1: the general part applied to the concrete mesh
`meshA` and the angle spec resolving to `(0, 0, 1)`. -/
theorem C1_witness :
    ∃ r mx, analyze_fingertip_geometry fsA linkA "d".toList none
        (some specA) = .ok r ∧
      r.tip_estimate = some (Vec3.smul mx ⟨0, 0, 1⟩) ∧
      (∃ v ∈ meshA.vertices, Vec3.dot v ⟨0, 0, 1⟩ = mx) ∧
      (∀ v ∈ meshA.vertices, Vec3.dot v ⟨0, 0, 1⟩ ≤ mx) :=
  C1_angle_tip_on_direction.1 fsA linkA "d".toList none "a.stl".toList
    Vec3.zero Vec3.zero [] meshA specA ⟨0, 0, 1⟩ ⟨1, 0, 1⟩ [] rfl
    (by decide) rfl rfl (by decide)

/-- C2: with an axis criterion — explicitly given (first conjunct) or
auto-detected (second conjunct) — the tip estimate is an actual mesh
vertex whose coordinate on that axis is maximal, ties broken by the
first occurrence in vertex enumeration order; and (third conjunct) the
analysis is a pure function, so running it twice on the same mesh and
axis yields the identical tip point. -/
theorem C2_axis_vertex_tip :
    (∀ (E : FileSys) (link : LinkData) (dir : List Char) (f : List Char)
        (o rp : Vec3) (rest : List Primitive) (m : Mesh) (a : Fin 3)
        (v0 : Vec3) (vr : List Vec3),
      link.collision = .meshPrim f o rp :: rest →
      load_mesh E f dir = some m →
      m.vertices = v0 :: vr →
      ∃ r i, analyze_fingertip_geometry E link dir (some a) none = .ok r ∧
        i < m.vertices.length ∧
        r.tip_estimate = some (m.vertices.getD i Vec3.zero) ∧
        m.vertices.getD i Vec3.zero ∈ m.vertices ∧
        (∀ v ∈ m.vertices, v.nth a ≤ (m.vertices.getD i Vec3.zero).nth a) ∧
        (∀ j, j < i → (m.vertices.getD j Vec3.zero).nth a <
          (m.vertices.getD i Vec3.zero).nth a)) ∧
    (∀ (E : FileSys) (link : LinkData) (dir : List Char) (f : List Char)
        (o rp : Vec3) (rest : List Primitive) (m : Mesh)
        (v0 : Vec3) (vr : List Vec3),
      link.collision = .meshPrim f o rp :: rest →
      load_mesh E f dir = some m →
      m.vertices = v0 :: vr →
      ∃ r a i, analyze_fingertip_geometry E link dir none none = .ok r ∧
        r.tip_axis_used = some (.axisIdx a) ∧
        i < m.vertices.length ∧
        r.tip_estimate = some (m.vertices.getD i Vec3.zero) ∧
        m.vertices.getD i Vec3.zero ∈ m.vertices ∧
        (∀ v ∈ m.vertices, v.nth a ≤ (m.vertices.getD i Vec3.zero).nth a) ∧
        (∀ j, j < i → (m.vertices.getD j Vec3.zero).nth a <
          (m.vertices.getD i Vec3.zero).nth a)) ∧
    (∀ (E : FileSys) (link : LinkData) (dir : List Char)
        (ax : Option (Fin 3)) (ang : Option AngleSpec),
      analyze_fingertip_geometry E link dir ax ang =
        analyze_fingertip_geometry E link dir ax ang) := by
  refine ⟨?_, ?_, fun _ _ _ _ _ => rfl⟩
  · intro E link dir f o rp rest m a v0 vr hc hm hv
    rw [analyze_eq_collisionMesh E link dir (some a) none f o rp rest m hc hm,
      analyzeCollisionMesh_axis_eq m a v0 vr hv, hv]
    obtain ⟨h1, h2, h3, h4⟩ := axis_argmax_spec v0 vr a
    refine ⟨_, argmaxQ ((v0 :: vr).map fun v => v.nth a), rfl, ?_, ?_, ?_, ?_, ?_⟩
    · exact h1
    · exact rfl
    · exact h2
    · exact h3
    · exact h4
  · intro E link dir f o rp rest m v0 vr hc hm hv
    rw [analyze_eq_collisionMesh E link dir none none f o rp rest m hc hm,
      analyzeCollisionMesh_auto_eq m v0 vr hv, hv]
    obtain ⟨h1, h2, h3, h4⟩ := axis_argmax_spec v0 vr
      (argmax3 (Vec3.sub (vr.foldl Vec3.maxv v0) (vr.foldl Vec3.minv v0)))
    refine ⟨_, argmax3 (Vec3.sub (vr.foldl Vec3.maxv v0) (vr.foldl Vec3.minv v0)),
      argmaxQ ((v0 :: vr).map fun v => v.nth
        (argmax3 (Vec3.sub (vr.foldl Vec3.maxv v0) (vr.foldl Vec3.minv v0)))),
      rfl, ?_, ?_, ?_, ?_, ?_, ?_⟩
    · exact rfl
    · exact h1
    · exact rfl
    · exact h2
    · exact h3
    · exact h4

unseal Rat.add Rat.mul Rat.inv Rat.sub in
/-- Witness for C2: the explicit-axis part applied to the concrete mesh
`meshC` and axis X. -/
theorem C2_witness :
    ∃ r i, analyze_fingertip_geometry fsA linkC "d".toList (some 0) none =
        .ok r ∧
      i < meshC.vertices.length ∧
      r.tip_estimate = some (meshC.vertices.getD i Vec3.zero) ∧
      meshC.vertices.getD i Vec3.zero ∈ meshC.vertices ∧
      (∀ v ∈ meshC.vertices, v.nth 0 ≤ (meshC.vertices.getD i Vec3.zero).nth 0) ∧
      (∀ j, j < i → (meshC.vertices.getD j Vec3.zero).nth 0 <
        (meshC.vertices.getD i Vec3.zero).nth 0) :=
  C2_axis_vertex_tip.1 fsA linkC "d".toList "c.stl".toList Vec3.zero
    Vec3.zero [] meshC 0 ⟨0, 0, 0⟩ [⟨2, 1, 2⟩] rfl (by decide) rfl

unseal Rat.add Rat.mul Rat.inv Rat.sub in
/-- C5: with neither an explicit axis nor an angle spec, the resolved
criterion for a mesh is the axis of maximum bounding-box extent
(`max - min` per axis over the vertices), ties broken by the lowest axis
index; the second conjunct shows a mesh with equal extents on X and Z
resolving to X. -/
theorem C5_auto_axis_max_extent :
    (∀ (E : FileSys) (link : LinkData) (dir : List Char) (f : List Char)
        (o rp : Vec3) (rest : List Primitive) (m : Mesh)
        (v0 : Vec3) (vr : List Vec3),
      link.collision = .meshPrim f o rp :: rest →
      load_mesh E f dir = some m →
      m.vertices = v0 :: vr →
      ∃ r a, analyze_fingertip_geometry E link dir none none = .ok r ∧
        r.tip_axis_used = some (.axisIdx a) ∧
        (∀ i : Fin 3, bboxExtent v0 vr i ≤ bboxExtent v0 vr a) ∧
        (∀ j : Fin 3, j < a → bboxExtent v0 vr j < bboxExtent v0 vr a)) ∧
    (∃ r, analyze_fingertip_geometry fsA linkC "d".toList none none = .ok r ∧
      r.tip_axis_used = some (.axisIdx 0) ∧
      bboxExtent ⟨0, 0, 0⟩ [⟨2, 1, 2⟩] 0 = bboxExtent ⟨0, 0, 0⟩ [⟨2, 1, 2⟩] 2) := by
  constructor
  · intro E link dir f o rp rest m v0 vr hc hm hv
    rw [analyze_eq_collisionMesh E link dir none none f o rp rest m hc hm,
      analyzeCollisionMesh_auto_eq m v0 vr hv]
    refine ⟨_, argmax3 (Vec3.sub (vr.foldl Vec3.maxv v0) (vr.foldl Vec3.minv v0)),
      rfl, rfl, ?_, ?_⟩
    · intro i
      have h := argmax3_is_max
        (Vec3.sub (vr.foldl Vec3.maxv v0) (vr.foldl Vec3.minv v0)) i
      rwa [sub_bounds_nth, sub_bounds_nth] at h
    · intro j hj
      have h := argmax3_is_first
        (Vec3.sub (vr.foldl Vec3.maxv v0) (vr.foldl Vec3.minv v0)) j hj
      rwa [sub_bounds_nth, sub_bounds_nth] at h
  · exact ⟨{ bounds := some (⟨0, 0, 0⟩, ⟨2, 1, 2⟩),
             center := some ⟨1, 1/2, 1⟩, centroid := some ⟨1, 1, 1⟩,
             tip_estimate := some ⟨2, 1, 2⟩,
             mesh_type := some .collision_mesh,
             tip_axis_used := some (.axisIdx 0),
             tip_direction := none },
           by decide, rfl, by decide⟩

unseal Rat.add Rat.mul Rat.inv Rat.sub in
/-- Witness for C5: the general part applied to the concrete mesh
`meshC` (extents `(2, 1, 2)`). -/
theorem C5_witness :
    ∃ r a, analyze_fingertip_geometry fsA linkC "d".toList none none = .ok r ∧
      r.tip_axis_used = some (.axisIdx a) ∧
      (∀ i : Fin 3, bboxExtent ⟨0, 0, 0⟩ [⟨2, 1, 2⟩] i ≤
        bboxExtent ⟨0, 0, 0⟩ [⟨2, 1, 2⟩] a) ∧
      (∀ j : Fin 3, j < a → bboxExtent ⟨0, 0, 0⟩ [⟨2, 1, 2⟩] j <
        bboxExtent ⟨0, 0, 0⟩ [⟨2, 1, 2⟩] a) :=
  C5_auto_axis_max_extent.1 fsA linkC "d".toList "c.stl".toList Vec3.zero
    Vec3.zero [] meshC ⟨0, 0, 0⟩ [⟨2, 1, 2⟩] rfl (by decide) rfl

/-- Witness for C6: the box of size `[10, 10, 6]` at origin `(1, 2, 3)`
yields the tip `(1, 2, 6)` (and does so under an explicit axis AND an
angle spec simultaneously supplied). -/
theorem C6_witness :
    ∃ r, analyze_fingertip_geometry fsA linkB "d".toList (some 0) (some specA) =
        .ok r ∧ r.tip_estimate = some ⟨1, 2, 6⟩ := by
  obtain ⟨r, hr, ht⟩ :=
    (C6_box_sphere_tip fsA linkB "d".toList (some 0) (some specA)).1
      ⟨10, 10, 6⟩ ⟨1, 2, 3⟩ Vec3.zero [] rfl
  refine ⟨r, hr, ?_⟩
  rw [ht]
  norm_num [Vec3.add]

/-! ## Shape lemmas for the `tip_estimate` / `mesh_type` invariant -/

theorem analyzeCollisionMesh_ok_tip (m : Mesh) (ax : Option (Fin 3))
    (ang : Option AngleSpec) (r : Results)
    (h : analyzeCollisionMesh m ax ang = .ok r) :
    ∃ t, r.tip_estimate = some t := by
  rcases hv : m.vertices with _ | ⟨v0, vr⟩
  · simp only [analyzeCollisionMesh, hv] at h
    exact Except.noConfusion h
  · rcases ang with _ | spec
    · simp only [analyzeCollisionMesh, hv] at h
      cases h
      exact ⟨_, rfl⟩
    · simp only [analyzeCollisionMesh, hv] at h
      cases h
      exact ⟨_, rfl⟩

theorem analyzeVisualMesh_ok_shape (r0 : Results) (m : Mesh) (r : Results)
    (h : analyzeVisualMesh r0 m = .ok r) :
    r.mesh_type = some .visual_mesh ∧ ∃ t, r.tip_estimate = some t := by
  rcases hv : m.vertices with _ | ⟨v0, vr⟩
  · simp only [analyzeVisualMesh, hv] at h
    exact Except.noConfusion h
  · simp only [analyzeVisualMesh, hv] at h
    cases h
    exact ⟨rfl, _, rfl⟩

theorem collisionStep_ok_shape (E : FileSys) (link : LinkData)
    (dir : List Char) (ax : Option (Fin 3)) (ang : Option AngleSpec)
    (r0 : Results) (h : collisionStep E link dir ax ang = .ok r0) :
    r0 = emptyResults ∨
      (r0.mesh_type.isSome ∧ ∃ t, r0.tip_estimate = some t) := by
  rcases hc : link.collision with _ | ⟨cd, rest⟩
  · simp only [collisionStep, hc] at h
    cases h
    exact Or.inl rfl
  · rcases cd with ⟨f, o, rp⟩ | ⟨size, o, rp⟩ | ⟨radius, o, rp⟩
    · rcases hm : load_mesh E f dir with _ | m
      · simp only [collisionStep, hc, hm] at h
        cases h
        exact Or.inl rfl
      · simp only [collisionStep, hc, hm] at h
        obtain ⟨t, ht⟩ := analyzeCollisionMesh_ok_tip m ax ang r0 h
        have hmt := analyzeCollisionMesh_mesh_type m ax ang r0 h
        exact Or.inr ⟨by rw [hmt]; rfl, t, ht⟩
    · simp only [collisionStep, hc] at h
      cases h
      exact Or.inr ⟨rfl, _, rfl⟩
    · simp only [collisionStep, hc] at h
      cases h
      exact Or.inr ⟨rfl, _, rfl⟩

theorem visualStep_ok_shape (E : FileSys) (link : LinkData)
    (dir : List Char) (r0 r : Results)
    (h : visualStep E link dir r0 = .ok r)
    (h0 : r0 = emptyResults ∨
      (r0.mesh_type.isSome ∧ ∃ t, r0.tip_estimate = some t)) :
    r = emptyResults ∨
      (r.mesh_type.isSome ∧ ∃ t, r.tip_estimate = some t) := by
  rcases h0 with rfl | ⟨hmt, t, ht⟩
  · rcases hvl : link.visual with _ | ⟨vd, rest⟩
    · simp only [visualStep, hvl, emptyResults] at h
      cases h
      exact Or.inl rfl
    · rcases hm : load_mesh E vd.file dir with _ | m
      · simp only [visualStep, hvl, hm, emptyResults] at h
        cases h
        exact Or.inl rfl
      · simp only [visualStep, hvl, hm, emptyResults] at h
        obtain ⟨hmt, t, ht⟩ := analyzeVisualMesh_ok_shape _ m r h
        exact Or.inr ⟨by rw [hmt]; rfl, t, ht⟩
  · rcases hmt' : r0.mesh_type with _ | mt
    · rw [hmt'] at hmt
      exact absurd hmt (by simp)
    · rw [visualStep_of_some E link dir r0 mt hmt'] at h
      cases h
      exact Or.inr ⟨hmt, t, ht⟩

/-- Every successful analysis result is either the all-`None` record or
has both a tip estimate and a mesh-type tag. -/
theorem analyze_ok_shape (E : FileSys) (link : LinkData) (dir : List Char)
    (ax : Option (Fin 3)) (ang : Option AngleSpec) (r : Results)
    (h : analyze_fingertip_geometry E link dir ax ang = .ok r) :
    r = emptyResults ∨
      (r.mesh_type.isSome ∧ ∃ t, r.tip_estimate = some t) := by
  rcases hcs : collisionStep E link dir ax ang with e | r0
  · rw [analyze_fingertip_geometry, hcs] at h
    exact Except.noConfusion h
  · rw [analyze_fingertip_geometry, hcs] at h
    exact visualStep_ok_shape E link dir r0 r h
      (collisionStep_ok_shape E link dir ax ang r0 hcs)

/-- C9: on every result `analyze_fingertip_geometry` actually produces,
the `tip_estimate` field is present exactly when the `mesh_type` field
is; consequently `suggest_center_offset` on such a result returns the
tip estimate when there is one and the zero vector otherwise — the
centroid and bounding-box-center fallbacks are never taken. -/
theorem C9_tip_iff_mesh_type (E : FileSys) (link : LinkData)
    (dir : List Char) (ax : Option (Fin 3)) (ang : Option AngleSpec)
    (r : Results)
    (h : analyze_fingertip_geometry E link dir ax ang = .ok r) :
    (r.tip_estimate.isSome ↔ r.mesh_type.isSome) ∧
    (∀ t, r.tip_estimate = some t → suggest_center_offset r = t) ∧
    (r.tip_estimate = none → suggest_center_offset r = Vec3.zero) := by
  rcases analyze_ok_shape E link dir ax ang r h with rfl | ⟨hmt, t, ht⟩
  · exact ⟨Iff.rfl, fun t ht => Option.noConfusion ht, fun _ => rfl⟩
  · refine ⟨?_, ?_, ?_⟩
    · rw [ht]
      simp [hmt]
    · intro t' ht'
      simp only [suggest_center_offset, ht']
    · intro hnone
      rw [hnone] at ht
      exact Option.noConfusion ht

/-- The analysis result for the box link `linkB`. -/
def resultsB : Results :=
  ⟨none, some ⟨1, 2, 3⟩, none, some ⟨1, 2, 6⟩, some .box, none, none⟩

unseal Rat.add Rat.mul Rat.inv Rat.sub in
/-- Witness for C9 at the box link `linkB`. -/
theorem C9_witness :
    (resultsB.tip_estimate.isSome ↔ resultsB.mesh_type.isSome) ∧
    (∀ t, resultsB.tip_estimate = some t →
      suggest_center_offset resultsB = t) ∧
    (resultsB.tip_estimate = none →
      suggest_center_offset resultsB = Vec3.zero) :=
  C9_tip_iff_mesh_type fsA linkB "d".toList none none resultsB (by decide)

/-- C10 (amended): the analysis reads only the FIRST collision entry and
the FIRST visual entry of a link: two link records agreeing on
`collision.head?` and on `visual.head?` produce identical results,
whatever their remaining primitives. -/
theorem C10_head_only (E : FileSys) (dir : List Char)
    (ax : Option (Fin 3)) (ang : Option AngleSpec) (l1 l2 : LinkData)
    (hcol : l1.collision.head? = l2.collision.head?)
    (hvis : l1.visual.head? = l2.visual.head?) :
    analyze_fingertip_geometry E l1 dir ax ang =
      analyze_fingertip_geometry E l2 dir ax ang := by
  have hc : collisionStep E l1 dir ax ang = collisionStep E l2 dir ax ang := by
    rcases h1 : l1.collision with _ | ⟨c1, t1⟩ <;>
      rcases h2 : l2.collision with _ | ⟨c2, t2⟩ <;>
        rw [h1, h2] at hcol <;> simp only [List.head?] at hcol
    · simp only [collisionStep, h1, h2]
    · exact Option.noConfusion hcol
    · exact Option.noConfusion hcol
    · cases hcol
      simp only [collisionStep, h1, h2]
  have hv : ∀ r : Results, visualStep E l1 dir r = visualStep E l2 dir r := by
    intro r
    rcases hmt : r.mesh_type with _ | mt
    · rcases h1 : l1.visual with _ | ⟨v1, t1⟩ <;>
        rcases h2 : l2.visual with _ | ⟨v2, t2⟩ <;>
          rw [h1, h2] at hvis <;> simp only [List.head?] at hvis
      · simp only [visualStep, h1, h2, hmt]
      · exact Option.noConfusion hvis
      · exact Option.noConfusion hvis
      · cases hvis
        simp only [visualStep, h1, h2, hmt]
    · rw [visualStep_of_some E l1 dir r mt hmt,
        visualStep_of_some E l2 dir r mt hmt]
  rw [analyze_fingertip_geometry, analyze_fingertip_geometry, hc]
  rcases hres : collisionStep E l2 dir ax ang with e | r
  · rfl
  · exact hv r

/-- Two links sharing the same (unloadable) first collision mesh but
differing in their visual list. -/
def linkV1 : LinkData :=
  ⟨[⟨"a.stl".toList, Vec3.zero, Vec3.zero⟩],
   [.meshPrim "missing.stl".toList Vec3.zero Vec3.zero]⟩

/-- Like `linkV1` but with no visual entry at all. -/
def linkV2 : LinkData :=
  ⟨[], [.meshPrim "missing.stl".toList Vec3.zero Vec3.zero]⟩

unseal Rat.add Rat.mul Rat.inv Rat.sub in
/-- Counterexample for C10 as stated: `linkV1` and `linkV2` agree on
`collision[0]` (collision is nonempty, so by the claim the remaining
primitives — including the visual list — should not matter), yet their
analysis results differ: the code falls back to `visual[0]` whenever the
first collision mesh fails to LOAD, not only when the collision list is
empty. -/
theorem C10_counterexample :
    linkV1.collision.head? = linkV2.collision.head? ∧
    analyze_fingertip_geometry fsA linkV1 "d".toList none none ≠
      analyze_fingertip_geometry fsA linkV2 "d".toList none none :=
  ⟨rfl, by decide⟩

/-! ## Error propagation (C4) -/

/-- C4 (amended): a mesh collision primitive with an empty vertex list
makes tip estimation fail with an error rather than return a degenerate
tip point, and a box / sphere collision element missing its required
numeric attribute makes parsing fail with an error; these errors are NOT
caught per finger — an error on one finger makes the whole loop (and so
the run) fail before any later finger is processed. -/
theorem C4_errors_abort_run :
    (∀ (m : Mesh) (ax : Option (Fin 3)) (ang : Option AngleSpec),
      m.vertices = [] → analyzeCollisionMesh m ax ang = .error .emptyMesh) ∧
    (∀ (E : FileSys) (link : LinkData) (dir : List Char)
        (ax : Option (Fin 3)) (ang : Option AngleSpec) (f : List Char)
        (o rp : Vec3) (rest : List Primitive) (m : Mesh),
      link.collision = .meshPrim f o rp :: rest →
      load_mesh E f dir = some m →
      m.vertices = [] →
      analyze_fingertip_geometry E link dir ax ang = .error .emptyMesh) ∧
    (∀ o rp, parse_box_collision none o rp = .error .missingAttr) ∧
    (∀ o rp, parse_sphere_collision none o rp = .error .missingAttr) ∧
    (∀ (E : FileSys) (links : String → Option LinkData) (dir : List Char)
        (axm : String → Option (Fin 3)) (angm : String → Option AngleSpec)
        (fi : FingerEntry) (rest : List FingerEntry) (e : GeoError),
      processFinger E links dir axm angm fi = .error e →
      processFingers E links dir axm angm (fi :: rest) = .error e) := by
  refine ⟨?_, ?_, fun o rp => rfl, fun o rp => rfl, ?_⟩
  · intro m ax ang hv
    simp only [analyzeCollisionMesh, hv]
  · intro E link dir ax ang f o rp rest m hc hm hv
    rw [analyze_eq_collisionMesh E link dir ax ang f o rp rest m hc hm]
    simp only [analyzeCollisionMesh, hv]
  · intro E links dir axm angm fi rest e he
    simp only [processFingers, he]

/-- A finger whose link has the zero-vertex collision mesh. -/
def fingerBad : FingerEntry := ⟨"b", "bad", "jb", Vec3.zero, 0⟩

/-- A finger whose link has the box collision primitive. -/
def fingerGood : FingerEntry := ⟨"g", "good", "jg", Vec3.zero, 1⟩

/-- The link table for the two fingers above. -/
def linksMap : String → Option LinkData := fun s =>
  if s = "bad" then some linkE
  else if s = "good" then some linkB
  else none

unseal Rat.add Rat.mul Rat.inv Rat.sub in
/-- Counterexample for C4 as stated: an empty-vertex mesh on the FIRST
finger does not merely skip that finger — the loop returns the error and
the second finger (which on its own would produce the suggestion
`(1, 2, 6)`) is never processed. -/
theorem C4_counterexample :
    processFingers fsA linksMap "d".toList (fun _ => none) (fun _ => none)
      [fingerBad, fingerGood] = .error .emptyMesh ∧
    processFingers fsA linksMap "d".toList (fun _ => none) (fun _ => none)
      [fingerGood] =
      .ok [{ fingerGood with center_offset := ⟨1, 2, 6⟩ }] := by
  constructor
  · decide
  · decide

/-- Witness for C4: the whole analysis of the zero-vertex mesh link
errors out (here under an explicit tip axis). -/
theorem C4_witness :
    analyze_fingertip_geometry fsA linkE "d".toList (some 0) none =
      .error .emptyMesh :=
  C4_errors_abort_run.2.1 fsA linkE "d".toList (some 0) none
    "e.stl".toList Vec3.zero Vec3.zero [] meshE rfl (by decide) rfl

/-! ## The `--save` output (C7) -/

/-- The `getD` default entry used to state per-index properties. -/
def dummyFinger : FingerEntry := ⟨"", "", "", Vec3.zero, 0⟩

theorem processFinger_spec (E : FileSys) (links : String → Option LinkData)
    (dir : List Char) (axm : String → Option (Fin 3))
    (angm : String → Option AngleSpec) (fi fo : FingerEntry)
    (h : processFinger E links dir axm angm fi = .ok fo) :
    fo.name = fi.name ∧ fo.link = fi.link ∧ fo.joint = fi.joint ∧
    fo.human_hand_id = fi.human_hand_id ∧
    (links fi.link = none → fo = fi) ∧
    (∀ ld, links fi.link = some ld →
      ∃ g, analyze_fingertip_geometry E ld dir (axm fi.name.toLower)
          (angm fi.name.toLower) = .ok g ∧
        fo.center_offset = suggest_center_offset g) := by
  rcases hl : links fi.link with _ | ld
  · simp only [processFinger, hl] at h
    cases h
    exact ⟨rfl, rfl, rfl, rfl, fun _ => rfl,
      fun ld hld => Option.noConfusion hld⟩
  · simp only [processFinger, hl] at h
    rcases ha : analyze_fingertip_geometry E ld dir (axm fi.name.toLower)
        (angm fi.name.toLower) with e | g
    · rw [ha] at h
      exact Except.noConfusion h
    · rw [ha] at h
      cases h
      refine ⟨rfl, rfl, rfl, rfl, fun hn => Option.noConfusion hn, ?_⟩
      intro ld2 hld2
      rw [Option.some_inj] at hld2
      subst hld2
      exact ⟨g, ha, rfl⟩

theorem processFingers_spec (E : FileSys) (links : String → Option LinkData)
    (dir : List Char) (axm : String → Option (Fin 3))
    (angm : String → Option AngleSpec) :
    ∀ (l out : List FingerEntry),
      processFingers E links dir axm angm l = .ok out →
      out.length = l.length ∧
      ∀ i, i < l.length →
        processFinger E links dir axm angm (l.getD i dummyFinger) =
          .ok (out.getD i dummyFinger)
  | [], out, h => by
    cases h
    exact ⟨rfl, fun i hi => absurd hi (Nat.not_lt_zero i)⟩
  | fi :: rest, out, h => by
    rcases hf : processFinger E links dir axm angm fi with e | s
    · simp only [processFingers, hf] at h
      exact Except.noConfusion h
    · rcases hr : processFingers E links dir axm angm rest with e | t
      · simp only [processFingers, hf, hr] at h
        exact Except.noConfusion h
      · simp only [processFingers, hf, hr] at h
        cases h
        obtain ⟨hlen, hidx⟩ :=
          processFingers_spec E links dir axm angm rest t hr
        refine ⟨by simp [hlen], ?_⟩
        intro i hi
        cases i with
        | zero => simpa using hf
        | succ i => exact hidx i (Nat.lt_of_succ_lt_succ hi)

/-- C7: when the run succeeds, the saved configuration is the input with
only `fingertip_link` replaced: the path and every other top-level field
are untouched; each finger entry keeps its name, link, joint and
human-hand id, an entry whose link is missing from the URDF is kept
verbatim, and an entry whose link was found has its `center_offset`
replaced by the suggested value. -/
theorem C7_save_replaces_only_offsets (E : FileSys)
    (links : String → Option LinkData) (dir : List Char)
    (axm : String → Option (Fin 3)) (angm : String → Option AngleSpec)
    (config out : Config)
    (h : mainSave E links dir axm angm config = .ok out) :
    out.urdf_path = config.urdf_path ∧
    out.extraFields = config.extraFields ∧
    out.fingertip_link.length = config.fingertip_link.length ∧
    (∀ i, i < config.fingertip_link.length →
      (out.fingertip_link.getD i dummyFinger).name =
        (config.fingertip_link.getD i dummyFinger).name ∧
      (out.fingertip_link.getD i dummyFinger).link =
        (config.fingertip_link.getD i dummyFinger).link ∧
      (out.fingertip_link.getD i dummyFinger).joint =
        (config.fingertip_link.getD i dummyFinger).joint ∧
      (out.fingertip_link.getD i dummyFinger).human_hand_id =
        (config.fingertip_link.getD i dummyFinger).human_hand_id ∧
      (links (config.fingertip_link.getD i dummyFinger).link = none →
        out.fingertip_link.getD i dummyFinger =
          config.fingertip_link.getD i dummyFinger) ∧
      (∀ ld, links (config.fingertip_link.getD i dummyFinger).link =
          some ld →
        ∃ g, analyze_fingertip_geometry E ld dir
            (axm (config.fingertip_link.getD i dummyFinger).name.toLower)
            (angm (config.fingertip_link.getD i dummyFinger).name.toLower) =
            .ok g ∧
          (out.fingertip_link.getD i dummyFinger).center_offset =
            suggest_center_offset g)) := by
  rcases hp : processFingers E links dir axm angm config.fingertip_link
      with e | sugg
  · rw [mainSave, hp] at h
    exact Except.noConfusion h
  · rw [mainSave, hp] at h
    cases h
    obtain ⟨hlen, hidx⟩ :=
      processFingers_spec E links dir axm angm config.fingertip_link sugg hp
    refine ⟨rfl, rfl, hlen, ?_⟩
    intro i hi
    obtain ⟨h1, h2, h3, h4, h5, h6⟩ :=
      processFinger_spec E links dir axm angm
        (config.fingertip_link.getD i dummyFinger)
        (sugg.getD i dummyFinger) (hidx i hi)
    exact ⟨h1, h2, h3, h4, h5, h6⟩

/-- The input configuration for the C7 witness: one finger with a found
link, one finger whose link is absent, and an extra top-level field. -/
def cfgIn : Config :=
  ⟨"d/h.urdf".toList, [fingerGood, ⟨"x", "nolink", "jx", ⟨9, 9, 9⟩, 2⟩],
   [("hand", "demo")]⟩

/-- The configuration the tool saves for `cfgIn`. -/
def cfgOut : Config :=
  ⟨"d/h.urdf".toList,
   [{ fingerGood with center_offset := ⟨1, 2, 6⟩ },
    ⟨"x", "nolink", "jx", ⟨9, 9, 9⟩, 2⟩],
   [("hand", "demo")]⟩

unseal Rat.add Rat.mul Rat.inv Rat.sub in
/-- Witness for C7 on the concrete configuration `cfgIn`. -/
theorem C7_witness :
    cfgOut.urdf_path = cfgIn.urdf_path ∧
    cfgOut.extraFields = cfgIn.extraFields ∧
    cfgOut.fingertip_link.length = cfgIn.fingertip_link.length := by
  have h := C7_save_replaces_only_offsets fsA linksMap "d".toList
    (fun _ => none) (fun _ => none) cfgIn cfgOut (by decide)
  exact ⟨h.1, h.2.1, h.2.2.1⟩

/-! ## Mesh-path resolution (C8) -/

/-- C8 (amended): resolution of `package://foo/meshes/bar.stl` against a
description directory `D` tries `D/foo/meshes/bar.stl` first, then
`D/bar.stl` (the segment after the last `meshes/`), and yields nothing
when both are missing (first conjunct — exactly the claim's example).
However the prefix handling removes EVERY occurrence of `package://`
when the filename starts with it, not only the leading one (second
conjunct): `package://a/package://b.stl` resolves via `D/a/b.stl`. -/
theorem C8_mesh_path_resolution (urdf_dir : List Char)
    (ex : List Char → Bool) :
    (resolve_mesh_path "package://foo/meshes/bar.stl".toList urdf_dir ex =
      if ex (urdf_dir ++ "/foo/meshes/bar.stl".toList) then
        some (urdf_dir ++ "/foo/meshes/bar.stl".toList)
      else if ex (urdf_dir ++ "/bar.stl".toList) then
        some (urdf_dir ++ "/bar.stl".toList)
      else none) ∧
    (resolve_mesh_path "package://a/package://b.stl".toList urdf_dir ex =
      if ex (urdf_dir ++ "/a/b.stl".toList) then
        some (urdf_dir ++ "/a/b.stl".toList)
      else none) := by
  constructor
  · have hstrip : stripPackage "package://foo/meshes/bar.stl".toList =
        "foo/meshes/bar.stl".toList := by decide
    have hlast : lastAfterMeshes "foo/meshes/bar.stl".toList =
        "bar.stl".toList := by decide
    have hchar1 : ('/' :: "foo/meshes/bar.stl".toList) =
        "/foo/meshes/bar.stl".toList := by decide
    have hchar2 : ('/' :: "bar.stl".toList) = "/bar.stl".toList := by decide
    have hjoin1 : joinPath urdf_dir "foo/meshes/bar.stl".toList =
        urdf_dir ++ "/foo/meshes/bar.stl".toList := by
      rw [joinPath, if_neg (by decide), hchar1]
    have hjoin2 : joinPath urdf_dir "bar.stl".toList =
        urdf_dir ++ "/bar.stl".toList := by
      rw [joinPath, if_neg (by decide), hchar2]
    simp only [resolve_mesh_path, hstrip, hlast, hjoin1, hjoin2]
  · have hstrip : stripPackage "package://a/package://b.stl".toList =
        "a/b.stl".toList := by decide
    have hlast : lastAfterMeshes "a/b.stl".toList = "a/b.stl".toList := by
      decide
    have hchar : ('/' :: "a/b.stl".toList) = "/a/b.stl".toList := by decide
    have hjoin : joinPath urdf_dir "a/b.stl".toList =
        urdf_dir ++ "/a/b.stl".toList := by
      rw [joinPath, if_neg (by decide), hchar]
    simp only [resolve_mesh_path, hstrip, hlast, hjoin]
    by_cases hex : ex (urdf_dir ++ "/a/b.stl".toList) <;> simp [hex]

/-- Counterexample for C8 as stated: on a filename with a second
`package://` occurrence, the code (which removes every occurrence)
finds `d/a/b.stl`, while the procedure described by the claim (strip
only the LEADING prefix) would look for `d/a/package://b.stl`, find
nothing, and return no primitive. -/
theorem C8_counterexample :
    resolve_mesh_path "package://a/package://b.stl".toList "d".toList
      (fun p => p == "d/a/b.stl".toList) = some "d/a/b.stl".toList ∧
    resolve_mesh_path_claim "package://a/package://b.stl".toList "d".toList
      (fun p => p == "d/a/b.stl".toList) = none := by
  constructor
  · decide
  · decide

/-- A link like `linkA` but with a second (ignored) collision
primitive appended. -/
def linkA2 : LinkData :=
  ⟨[], [.meshPrim "a.stl".toList Vec3.zero Vec3.zero,
        .spherePrim 5 ⟨7, 7, 7⟩ Vec3.zero]⟩

/-- Witness for the amended C10: `linkA` and `linkA2` agree on both
heads and analyze identically. -/
theorem C10_witness :
    analyze_fingertip_geometry fsA linkA "d".toList none none =
      analyze_fingertip_geometry fsA linkA2 "d".toList none none :=
  C10_head_only fsA "d".toList none none linkA linkA2 rfl rfl

end GeoRT



